import Mathlib

/-!
# Attendance scanner: payload decoding and check-in / check-out resolution

A shallow embedding of `src/components/AttendanceScanner.jsx` and
`src/components/ParticipantQRCode.jsx`.

JavaScript strings are sequences of UTF-16 code units; they are modelled as
lists of natural numbers (one number per code unit).  JavaScript values are
modelled by `JsVal`.  The built-ins the components call (`JSON.parse`,
`JSON.stringify` on an object of strings, `String.prototype.includes`,
`String.prototype.split`, `Array.isArray`, property reads, `!!`) are modelled
after ECMA-262 / ECMA-404.
-/

namespace EarlEd

/-! ## JavaScript values -/

/-- A JavaScript string: its UTF-16 code units. -/
abbrev JsString := List Nat

/-- The code units of one Unicode scalar value (UTF-16 encoding). -/
def utf16 (c : Char) : List Nat :=
  if c.toNat < 0x10000 then [c.toNat]
  else [0xD800 + (c.toNat - 0x10000) / 0x400, 0xDC00 + (c.toNat - 0x10000) % 0x400]

/-- The JavaScript string written as a source literal. -/
def js (s : String) : JsString := s.toList.flatMap utf16

/-- JavaScript values that plain data can take.  A number is kept as the exact
decimal `(-1)^neg * mant * 10^exp` that its literal denotes. -/
inductive JsVal where
  | undefined
  | null
  | bool (b : Bool)
  | num (neg : Bool) (mant : Nat) (exp : Int)
  | str (s : JsString)
  | arr (items : List JsVal)
  | obj (fields : List (JsString × JsVal))

/-- Whether the decimal `mant * 10^exp` rounds to a non-zero double: it is
non-zero and lies strictly above half of the least subnormal, `2^-1075`
(round to nearest, ties to even). -/
def numNonZero (mant : Nat) (exp : Int) : Bool :=
  mant != 0 && (decide (0 ≤ exp) || decide (10 ^ (-exp).toNat < mant * 2 ^ 1075))

/-- ECMA-262 `ToBoolean`: `undefined`, `null`, `false`, `±0` and the empty
string are falsy, everything else (every object and array) is truthy. -/
def toBoolean : JsVal → Bool
  | .undefined => false
  | .null => false
  | .bool b => b
  | .num _ mant exp => numNonZero mant exp
  | .str s => !s.isEmpty
  | .arr _ => true
  | .obj _ => true

/-- Own-property lookup in an object's field list. -/
def lookupField : List (JsString × JsVal) → JsString → JsVal
  | [], _ => .undefined
  | (k, v) :: rest, name => if k = name then v else lookupField rest name

/-- Property write `o[name] = v` on a field list: an existing property keeps
its position and takes the new value, a new one is appended. -/
def setField : List (JsString × JsVal) → JsString → JsVal → List (JsString × JsVal)
  | [], name, v => [(name, v)]
  | (k, w) :: rest, name, v =>
    if k = name then (k, v) :: rest else (k, w) :: setField rest name v

/-- Property read `v.name`, for a name that no built-in prototype defines
(every name the components read: `seminar_id`, `participant_email`, `error`,
`data`, `time_in`, `time_out`).  `none` is the `TypeError` thrown on `null` and
`undefined`. -/
def getProp (v : JsVal) (name : JsString) : Option JsVal :=
  match v with
  | .undefined => none
  | .null => none
  | .obj fields => some (lookupField fields name)
  | _ => some .undefined

/-- Optional chaining `v?.name`: `undefined` on `null` and `undefined`. -/
def optProp (v : JsVal) (name : JsString) : JsVal :=
  match v with
  | .obj fields => lookupField fields name
  | _ => .undefined

/-- The built-in `Array.isArray(v)`. -/
def isArray : JsVal → Bool
  | .arr _ => true
  | _ => false

/-- Element read `a[i]` on a list of values: `undefined` past the end. -/
def elemAt : List JsVal → Nat → JsVal
  | [], _ => .undefined
  | x :: _, 0 => x
  | _ :: rest, i + 1 => elemAt rest i

/-! ## `JSON.parse`

The JSON grammar of ECMA-404 read by a pushdown automaton: one step per code
unit, a stack of the arrays and objects that are still open.  Reading never runs
out of fuel: the automaton is a fold over the text. -/

/-- An array or an object that is still open. -/
inductive Frame where
  /-- An open array with the elements read so far, latest first. -/
  | arr (items : List JsVal)
  /-- An open object with its properties so far and the key read last. -/
  | obj (fields : List (JsString × JsVal)) (key : JsString)

/-- Where in a number literal the automaton stands. -/
inductive NumPos where
  | minus
  | zero
  | int
  | dot
  | frac
  | e
  | esign
  | exp
  deriving DecidableEq

/-- The digits of a number literal read so far. -/
structure NumAcc where
  neg : Bool
  mant : Nat
  fracDigits : Nat
  expNeg : Bool
  expVal : Nat

/-- The value a finished number literal denotes. -/
def NumAcc.value (a : NumAcc) : JsVal :=
  .num a.neg a.mant ((if a.expNeg then -(a.expVal : Int) else (a.expVal : Int)) - (a.fracDigits : Int))

/-- What the automaton expects next. -/
inductive Mode where
  /-- A value. -/
  | value
  /-- Just after `[`: a value or `]`. -/
  | arrStart
  /-- Just after `{`: a key or `}`. -/
  | objStart
  /-- After `,` inside an object: a key. -/
  | objKey
  /-- After a key: `:`. -/
  | colon
  /-- After a value inside an array or object: `,` or the closing bracket. -/
  | after
  /-- After the top-level value: only whitespace. -/
  | done (v : JsVal)
  /-- Inside a string. -/
  | str (isKey : Bool) (acc : JsString)
  /-- Just after a backslash inside a string. -/
  | esc (isKey : Bool) (acc : JsString)
  /-- Inside a `\u` escape with `n` hex digits of value `v` read. -/
  | uni (isKey : Bool) (acc : JsString) (n : Nat) (v : Nat)
  /-- Inside `true`, `false` or `null` with `rest` still to come. -/
  | lit (rest : JsString) (v : JsVal)
  /-- Inside a number literal. -/
  | num (pos : NumPos) (acc : NumAcc)

/-- State of the automaton. -/
structure PState where
  mode : Mode
  stack : List Frame

/-- JSON whitespace: space, tab, line feed, carriage return. -/
def isWs (c : Nat) : Bool := c == 0x20 || c == 0x09 || c == 0x0A || c == 0x0D

/-- Decimal digit `0`..`9`. -/
def isDigit (c : Nat) : Bool := decide (48 ≤ c) && decide (c ≤ 57)

/-- Value of a hexadecimal digit, either case. -/
def hexVal (c : Nat) : Option Nat :=
  if 48 ≤ c ∧ c ≤ 57 then some (c - 48)
  else if 97 ≤ c ∧ c ≤ 102 then some (c - 87)
  else if 65 ≤ c ∧ c ≤ 70 then some (c - 55)
  else none

/-- A value is complete: it becomes the top-level result, the next element of
the open array, or the value of the pending key of the open object. -/
def complete (v : JsVal) : List Frame → PState
  | [] => ⟨.done v, []⟩
  | .arr items :: rest => ⟨.after, .arr (v :: items) :: rest⟩
  | .obj fields key :: rest => ⟨.after, .obj (setField fields key v) key :: rest⟩

/-- Reading `]`. -/
def closeArr : List Frame → Option PState
  | .arr items :: rest => some (complete (.arr items.reverse) rest)
  | _ => none

/-- Reading `}`. -/
def closeObj : List Frame → Option PState
  | .obj fields _ :: rest => some (complete (.obj fields) rest)
  | _ => none

/-- A key string is complete: remember it in the open object. -/
def setKey (key : JsString) : List Frame → Option PState
  | .obj fields _ :: rest => some ⟨.colon, .obj fields key :: rest⟩
  | _ => none

/-- First code unit of a value. -/
def startValue (c : Nat) (stack : List Frame) : Option PState :=
  if c = 123 then some ⟨.objStart, .obj [] [] :: stack⟩
  else if c = 91 then some ⟨.arrStart, .arr [] :: stack⟩
  else if c = 34 then some ⟨.str false [], stack⟩
  else if c = 45 then some ⟨.num .minus ⟨true, 0, 0, false, 0⟩, stack⟩
  else if c = 48 then some ⟨.num .zero ⟨false, 0, 0, false, 0⟩, stack⟩
  else if 49 ≤ c ∧ c ≤ 57 then some ⟨.num .int ⟨false, c - 48, 0, false, 0⟩, stack⟩
  else if c = 116 then some ⟨.lit [114, 117, 101] (.bool true), stack⟩
  else if c = 102 then some ⟨.lit [97, 108, 115, 101] (.bool false), stack⟩
  else if c = 110 then some ⟨.lit [117, 108, 108] .null, stack⟩
  else none

/-- A code unit read after a complete value. -/
def stepAfter (s : PState) (c : Nat) : Option PState :=
  match s.mode with
  | .done _ => if isWs c then some s else none
  | .after =>
    if isWs c then some s
    else if c = 44 then
      match s.stack with
      | .arr _ :: _ => some ⟨.value, s.stack⟩
      | .obj _ _ :: _ => some ⟨.objKey, s.stack⟩
      | [] => none
    else if c = 93 then closeArr s.stack
    else if c = 125 then closeObj s.stack
    else none
  | _ => none

/-- A code unit read inside a number literal.  A code unit that cannot continue
the literal ends it (when the literal is complete so far) and is then read as
the unit that follows a value. -/
def stepNum (pos : NumPos) (a : NumAcc) (stack : List Frame) (c : Nat) : Option PState :=
  let d := c - 48
  let isE : Bool := c == 101 || c == 69
  let finish : Option PState := stepAfter (complete a.value stack) c
  match pos with
  | .minus =>
    if c = 48 then some ⟨.num .zero a, stack⟩
    else if 49 ≤ c ∧ c ≤ 57 then some ⟨.num .int { a with mant := d }, stack⟩
    else none
  | .zero =>
    if c = 46 then some ⟨.num .dot a, stack⟩
    else if isE then some ⟨.num .e a, stack⟩
    else if isDigit c then none
    else finish
  | .int =>
    if isDigit c then some ⟨.num .int { a with mant := a.mant * 10 + d }, stack⟩
    else if c = 46 then some ⟨.num .dot a, stack⟩
    else if isE then some ⟨.num .e a, stack⟩
    else finish
  | .dot =>
    if isDigit c then
      some ⟨.num .frac { a with mant := a.mant * 10 + d, fracDigits := a.fracDigits + 1 }, stack⟩
    else none
  | .frac =>
    if isDigit c then
      some ⟨.num .frac { a with mant := a.mant * 10 + d, fracDigits := a.fracDigits + 1 }, stack⟩
    else if isE then some ⟨.num .e a, stack⟩
    else finish
  | .e =>
    if c = 43 then some ⟨.num .esign a, stack⟩
    else if c = 45 then some ⟨.num .esign { a with expNeg := true }, stack⟩
    else if isDigit c then some ⟨.num .exp { a with expVal := d }, stack⟩
    else none
  | .esign =>
    if isDigit c then some ⟨.num .exp { a with expVal := d }, stack⟩
    else none
  | .exp =>
    if isDigit c then some ⟨.num .exp { a with expVal := a.expVal * 10 + d }, stack⟩
    else finish

/-- A string is complete: a key is remembered, any other string is a value. -/
def endString (isKey : Bool) (acc : JsString) (stack : List Frame) : Option PState :=
  if isKey then setKey acc stack else some (complete (.str acc) stack)

/-- One step of the automaton; `none` is a syntax error. -/
def step (s : PState) (c : Nat) : Option PState :=
  match s.mode with
  | .value => if isWs c then some s else startValue c s.stack
  | .arrStart =>
    if isWs c then some s
    else if c = 93 then closeArr s.stack
    else startValue c s.stack
  | .objStart =>
    if isWs c then some s
    else if c = 34 then some ⟨.str true [], s.stack⟩
    else if c = 125 then closeObj s.stack
    else none
  | .objKey =>
    if isWs c then some s
    else if c = 34 then some ⟨.str true [], s.stack⟩
    else none
  | .colon =>
    if isWs c then some s
    else if c = 58 then some ⟨.value, s.stack⟩
    else none
  | .after => stepAfter s c
  | .done _ => stepAfter s c
  | .str isKey acc =>
    if c = 34 then endString isKey acc s.stack
    else if c = 92 then some ⟨.esc isKey acc, s.stack⟩
    else if c < 32 then none
    else some ⟨.str isKey (acc ++ [c]), s.stack⟩
  | .esc isKey acc =>
    if c = 34 ∨ c = 92 ∨ c = 47 then some ⟨.str isKey (acc ++ [c]), s.stack⟩
    else if c = 98 then some ⟨.str isKey (acc ++ [8]), s.stack⟩
    else if c = 102 then some ⟨.str isKey (acc ++ [12]), s.stack⟩
    else if c = 110 then some ⟨.str isKey (acc ++ [10]), s.stack⟩
    else if c = 114 then some ⟨.str isKey (acc ++ [13]), s.stack⟩
    else if c = 116 then some ⟨.str isKey (acc ++ [9]), s.stack⟩
    else if c = 117 then some ⟨.uni isKey acc 0 0, s.stack⟩
    else none
  | .uni isKey acc n v =>
    match hexVal c with
    | none => none
    | some d =>
      if n = 3 then some ⟨.str isKey (acc ++ [v * 16 + d]), s.stack⟩
      else some ⟨.uni isKey acc (n + 1) (v * 16 + d), s.stack⟩
  | .lit rest v =>
    match rest with
    | [] => none
    | r :: rs =>
      if c = r then (if rs.isEmpty then some (complete v s.stack) else some ⟨.lit rs v, s.stack⟩)
      else none
  | .num pos a => stepNum pos a s.stack c

/-- Run the automaton over a text. -/
def run : PState → List Nat → Option PState
  | s, [] => some s
  | s, c :: rest =>
    match step s c with
    | none => none
    | some s' => run s' rest

/-- At the end of the text: the top-level value, if the text was one. -/
def finish (s : PState) : Option JsVal :=
  match s.mode with
  | .done v => some v
  | .num pos a =>
    if pos = .zero ∨ pos = .int ∨ pos = .frac ∨ pos = .exp then
      match s.stack with
      | [] => some a.value
      | _ => none
    else none
  | _ => none

/-- Model of `JSON.parse(text)` for a string `text`; `none` is the `SyntaxError`
it throws. -/
def JSONparse (text : JsString) : Option JsVal :=
  match run ⟨.value, []⟩ text with
  | none => none
  | some s => finish s

/-! ## `JSON.stringify` of an object of strings -/

/-- Leading (high) surrogate code unit. -/
def isHigh (c : Nat) : Bool := decide (0xD800 ≤ c) && decide (c ≤ 0xDBFF)

/-- Trailing (low) surrogate code unit. -/
def isLow (c : Nat) : Bool := decide (0xDC00 ≤ c) && decide (c ≤ 0xDFFF)

/-- Lower-case hexadecimal digit of a value below 16. -/
def hexDigit (d : Nat) : Nat := if d < 10 then 48 + d else 87 + d

/-- ECMA-262 `UnicodeEscape`: backslash, `u`, four lower-case hex digits. -/
def unicodeEscape (c : Nat) : List Nat :=
  [92, 117, hexDigit (c / 4096 % 16), hexDigit (c / 256 % 16), hexDigit (c / 16 % 16),
    hexDigit (c % 16)]

/-- What `QuoteJSONString` emits for a code point that is one code unit: the
two-character escapes of the table, a `\u` escape for the other control
characters and for a surrogate that has no partner, the unit itself
otherwise. -/
def quoteOne (c : Nat) : List Nat :=
  if c = 8 then [92, 98]
  else if c = 9 then [92, 116]
  else if c = 10 then [92, 110]
  else if c = 12 then [92, 102]
  else if c = 13 then [92, 114]
  else if c = 34 then [92, 34]
  else if c = 92 then [92, 92]
  else if c < 32 ∨ isHigh c ∨ isLow c then unicodeEscape c
  else [c]

/-- Whether a text starts with a trailing surrogate. -/
def startsLow : List Nat → Bool
  | [] => false
  | d :: _ => isLow d

/-- The body of `QuoteJSONString`: the string is read code point by code point.
A leading surrogate followed by a trailing one is a pair and both units are
copied; `paired` says that the unit read next is the second half of a pair. -/
def quoteUnits (paired : Bool) : List Nat → List Nat
  | [] => []
  | c :: rest =>
    if paired then c :: quoteUnits false rest
    else if isHigh c && startsLow rest then c :: quoteUnits true rest
    else quoteOne c ++ quoteUnits false rest

/-- ECMA-262 `QuoteJSONString`. -/
def quoteJSONString (s : JsString) : JsString := [34] ++ quoteUnits false s ++ [34]

/-- The members of `JSON.stringify` of an object whose property values are
strings, without gap: `"key":"value"` joined by commas. -/
def stringifyMembers : List (JsString × JsString) → JsString
  | [] => []
  | [(k, v)] => quoteJSONString k ++ [58] ++ quoteJSONString v
  | (k, v) :: rest => quoteJSONString k ++ [58] ++ quoteJSONString v ++ [44] ++ stringifyMembers rest

/-- The text `JSON.stringify(o)` for an object `o` whose own properties, in order, are
the given string-valued ones. -/
def JSONstringify (props : List (JsString × JsString)) : JsString :=
  [123] ++ stringifyMembers props ++ [125]

/-! ## `String.prototype.includes` and `String.prototype.split` -/

/-- The test `text.includes(sep)` for a separator of one code unit. -/
def includes (text : JsString) (sep : Nat) : Bool := text.contains sep

/-- The parts `text.split(sep)` for a separator of one code unit. -/
def split : JsString → Nat → List JsString
  | [], _ => [[]]
  | c :: rest, sep =>
    if c = sep then [] :: split rest sep
    else
      match split rest sep with
      | [] => [[c]]
      | part :: parts => (c :: part) :: parts

/-! ## `ParticipantQRCode.jsx` -/

/-- The `payload` of `ParticipantQRCode` (line 6) for string props
`seminarId` and `email`. -/
def ParticipantQRCode (seminarId email : JsString) : JsString :=
  JSONstringify [(js "seminar_id", seminarId), (js "participant_email", email)]

/-! ## `AttendanceScanner.jsx`: `parsePayload` -/

/-- The `"|"` of the fallback format. -/
def pipe : Nat := 124

/-- The fallback of `parsePayload`, written twice in the source (lines 39-43
in the `try` block, lines 46-50 in the `catch` block): when the text includes
`"|"`, the first two parts of `text.split("|")` become the two fields;
otherwise `null`. -/
def fallbackSplit (text : JsString) : JsVal :=
  if includes text pipe then
    let parts := (split text pipe).map JsVal.str
    .obj [(js "seminar_id", elemAt parts 0), (js "participant_email", elemAt parts 1)]
  else .null

/-- The `try` block of `parsePayload` (lines 35-43); `none` when it throws:
the `SyntaxError` of `JSON.parse` or the `TypeError` of reading a property of
`null`. -/
def parsePayloadTry (text : JsString) : Option JsVal :=
  match JSONparse text with
  | none => none
  | some parsed =>
    match getProp parsed (js "seminar_id") with
    | none => none
    | some sid =>
      if toBoolean sid then
        match getProp parsed (js "participant_email") with
        | none => none
        | some email => if toBoolean email then some parsed else some (fallbackSplit text)
      else some (fallbackSplit text)

/-- The function `parsePayload` (lines 34-52): the `try` block, and the `catch`
block when it throws.  The result is `null` or an object. -/
def parsePayload (text : JsString) : JsVal :=
  match parsePayloadTry text with
  | some payload => payload
  | none => fallbackSplit text

/-! ## `AttendanceScanner.jsx`: the store and the two resolution paths

`recordTimeIn` and `recordTimeOut` are imported from `../lib/db`; the component
only awaits them.  A store is any pair of such operations over some state:
each call answers with a settled promise and a new state. -/

/-- What `await` on a store call gives: the value the promise resolved to, or
a rejection. -/
inductive Reply where
  | resolved (value : JsVal)
  | rejected

/-- The two operations imported from `../lib/db`, over a store state `σ`. -/
structure Store (σ : Type) where
  recordTimeIn : JsVal → JsVal → σ → Reply × σ
  recordTimeOut : JsVal → JsVal → σ → Reply × σ

/-- A call the component makes to the store, with its arguments. -/
inductive Call where
  | timeIn (seminarId email : JsVal)
  | timeOut (seminarId email : JsVal)

/-- How a handler ends, by the message it leaves through `setMessage`. -/
inductive Outcome where
  /-- The message `Invalid QR — expected ...` (line 63). -/
  | invalidPayload
  /-- The message `Enter seminar id and participant email.` (line 138). -/
  | missingInput
  /-- The message `... checked IN ...` (lines 85, 152). -/
  | checkedIn
  /-- The message `... checked OUT ...` (lines 96, 160). -/
  | checkedOut
  /-- The message `Error recording attendance IN.` (line 77) or
  `Error recording IN (manual).` (line 145). -/
  | errorIn
  /-- The message `Error recording attendance OUT.` (line 93) or
  `Error recording OUT (manual).` (line 157). -/
  | errorOut
  /-- An exception leaves the handler: no final message. -/
  | threw
  deriving DecidableEq

/-- What one run of a handler did: its outcome, the store calls it made in
order, and the store state it left. -/
structure Resolution (σ : Type) where
  outcome : Outcome
  calls : List Call
  store : σ

/-- Element read `v[i]` on a value that is an array. -/
def index (v : JsVal) (i : Nat) : JsVal :=
  match v with
  | .arr items => elemAt items i
  | _ => .undefined

/-- The flag `hasTimeOut` (line 81, and again line 148), from `inRes.data`:
`Array.isArray(data) ? !!data[0]?.time_out : !!data?.time_out`. -/
def hasTimeOut (data : JsVal) : Bool :=
  if isArray data then toBoolean (optProp (index data 0) (js "time_out"))
  else toBoolean (optProp data (js "time_out"))

/-- The flag `hasTimeIn` (line 82, and again line 149), from `inRes.data`:
`Array.isArray(data) ? !!data[0]?.time_in : !!data?.time_in`. -/
def hasTimeIn (data : JsVal) : Bool :=
  if isArray data then toBoolean (optProp (index data 0) (js "time_in"))
  else toBoolean (optProp data (js "time_in"))

/-- The handler `onScanSuccess` (lines 54-97) from the parsed payload on.  The
first lines, which stop the camera, touch neither the payload nor the store and
are left out. -/
def onScanSuccess {σ : Type} (S : Store σ) (decodedText : JsString) (st : σ) : Resolution σ :=
  let payload := parsePayload decodedText
  if !toBoolean payload then ⟨.invalidPayload, [], st⟩
  else
    match getProp payload (js "participant_email"), getProp payload (js "seminar_id") with
    | some email, some seminarId =>
      match S.recordTimeIn seminarId email st with
      | (.rejected, st1) => ⟨.threw, [.timeIn seminarId email], st1⟩
      | (.resolved inRes, st1) =>
        match getProp inRes (js "error"), getProp inRes (js "data") with
        | some error, some data =>
          if toBoolean error then ⟨.errorIn, [.timeIn seminarId email], st1⟩
          else if hasTimeIn data && !hasTimeOut data then
            ⟨.checkedIn, [.timeIn seminarId email], st1⟩
          else
            match S.recordTimeOut seminarId email st1 with
            | (.rejected, st2) =>
              ⟨.threw, [.timeIn seminarId email, .timeOut seminarId email], st2⟩
            | (.resolved outRes, st2) =>
              match getProp outRes (js "error") with
              | some error2 =>
                if toBoolean error2 then
                  ⟨.errorOut, [.timeIn seminarId email, .timeOut seminarId email], st2⟩
                else ⟨.checkedOut, [.timeIn seminarId email, .timeOut seminarId email], st2⟩
              | none => ⟨.threw, [.timeIn seminarId email, .timeOut seminarId email], st2⟩
        | _, _ => ⟨.threw, [.timeIn seminarId email], st1⟩
    | _, _ => ⟨.threw, [], st⟩

/-- The handler `manualCheckInOut` (lines 136-161); `manualSeminarId` and
`manualEmail` are the texts of the two input fields. -/
def manualCheckInOut {σ : Type} (S : Store σ) (manualSeminarId manualEmail : JsString) (st : σ) :
    Resolution σ :=
  if manualSeminarId.isEmpty || manualEmail.isEmpty then ⟨.missingInput, [], st⟩
  else
    match S.recordTimeIn (.str manualSeminarId) (.str manualEmail) st with
    | (.rejected, st1) => ⟨.threw, [.timeIn (.str manualSeminarId) (.str manualEmail)], st1⟩
    | (.resolved inRes, st1) =>
      match getProp inRes (js "error"), getProp inRes (js "data") with
      | some error, some data =>
        if toBoolean error then
          ⟨.errorIn, [.timeIn (.str manualSeminarId) (.str manualEmail)], st1⟩
        else if hasTimeIn data && !hasTimeOut data then
          ⟨.checkedIn, [.timeIn (.str manualSeminarId) (.str manualEmail)], st1⟩
        else
          match S.recordTimeOut (.str manualSeminarId) (.str manualEmail) st1 with
          | (.rejected, st2) =>
            ⟨.threw, [.timeIn (.str manualSeminarId) (.str manualEmail),
              .timeOut (.str manualSeminarId) (.str manualEmail)], st2⟩
          | (.resolved outRes, st2) =>
            match getProp outRes (js "error") with
            | some error2 =>
              if toBoolean error2 then
                ⟨.errorOut, [.timeIn (.str manualSeminarId) (.str manualEmail),
                  .timeOut (.str manualSeminarId) (.str manualEmail)], st2⟩
              else
                ⟨.checkedOut, [.timeIn (.str manualSeminarId) (.str manualEmail),
                  .timeOut (.str manualSeminarId) (.str manualEmail)], st2⟩
            | none =>
              ⟨.threw, [.timeIn (.str manualSeminarId) (.str manualEmail),
                .timeOut (.str manualSeminarId) (.str manualEmail)], st2⟩
      | _, _ => ⟨.threw, [.timeIn (.str manualSeminarId) (.str manualEmail)], st1⟩

/-! ## The store contract of the specification (section 4.2)

`../lib/db` is not among the sources.  The contract the specification gives
for its two operations is stated as a predicate on an arbitrary store, and one
store that obeys it is written out. -/

/-- Modelled from the spec: a `Timestamp` (section 3), the non-empty text of a
date and time as the store returns it. -/
structure Timestamp where
  text : JsString
  nonempty : text ≠ []

/-- Modelled from the spec: the `AttendanceRecord` of section 3, one per
`(seminarId, participantEmail)`, each field a timestamp or absent. -/
structure AttendanceRecord where
  timeIn : Option Timestamp
  timeOut : Option Timestamp

/-- Modelled from the spec: `data` carries the record `r`, singly or as a
one-element sequence (section 6): an object whose `time_in` and `time_out` are
truthy exactly when the field of `r` is present. -/
def CarriesRecord (data : JsVal) (r : AttendanceRecord) : Prop :=
  ∃ fields, (data = .obj fields ∨ data = .arr [.obj fields]) ∧
    toBoolean (lookupField fields (js "time_in")) = r.timeIn.isSome ∧
    toBoolean (lookupField fields (js "time_out")) = r.timeOut.isSome

/-- Modelled from the spec: the reply `{ data, error }` of a store call that
succeeded and returns the record `r` (section 6). -/
def ReturnsRecord (reply : Reply) (r : AttendanceRecord) : Prop :=
  ∃ fields, reply = .resolved (.obj fields) ∧
    toBoolean (lookupField fields (js "error")) = false ∧
    CarriesRecord (lookupField fields (js "data")) r

/-- Modelled from the spec: the contracts of "record time-in" (section 4.2,
step 1) and "record time-out" (step 3) for a store `S` whose state shows, through
`view`, the record of each identity.  Both are stated for calls that succeed. -/
structure ObeysContract {σ : Type} (S : Store σ)
    (view : σ → JsString → JsString → Option AttendanceRecord) : Prop where
  /-- No record exists: one is created with `timeIn = now`. -/
  timeIn_create : ∀ st s e, view st s e = none →
    ∃ t, view (S.recordTimeIn (.str s) (.str e) st).2 s e = some ⟨some t, none⟩
  /-- A record exists with `timeIn` absent: it is set to `now`. -/
  timeIn_set : ∀ st s e r, view st s e = some r → r.timeIn = none →
    ∃ t, view (S.recordTimeIn (.str s) (.str e) st).2 s e = some ⟨some t, r.timeOut⟩
  /-- A record exists with `timeIn` present: the store is left unchanged. -/
  timeIn_noop : ∀ st s e r, view st s e = some r → r.timeIn.isSome = true →
    view (S.recordTimeIn (.str s) (.str e) st).2 = view st
  /-- The call returns the current record, after the attempt. -/
  timeIn_returns : ∀ st s e,
    ∃ r, view (S.recordTimeIn (.str s) (.str e) st).2 s e = some r ∧
      ReturnsRecord (S.recordTimeIn (.str s) (.str e) st).1 r
  /-- The call touches no other identity. -/
  timeIn_frame : ∀ st s e s' e', (s', e') ≠ (s, e) →
    view (S.recordTimeIn (.str s) (.str e) st).2 s' e' = view st s' e'
  /-- The record has `timeIn` present and `timeOut` absent: `timeOut = now`. -/
  timeOut_set : ∀ st s e r, view st s e = some r → r.timeIn.isSome = true → r.timeOut = none →
    ∃ t, view (S.recordTimeOut (.str s) (.str e) st).2 s e = some ⟨r.timeIn, some t⟩
  /-- The record has `timeOut` present: the store is left unchanged. -/
  timeOut_noop : ∀ st s e r, view st s e = some r → r.timeOut.isSome = true →
    view (S.recordTimeOut (.str s) (.str e) st).2 = view st
  /-- The call returns the current record. -/
  timeOut_returns : ∀ st s e r, view st s e = some r →
    ∃ r', view (S.recordTimeOut (.str s) (.str e) st).2 s e = some r' ∧
      ReturnsRecord (S.recordTimeOut (.str s) (.str e) st).1 r'
  /-- The call touches no other identity. -/
  timeOut_frame : ∀ st s e s' e', (s', e') ≠ (s, e) →
    view (S.recordTimeOut (.str s) (.str e) st).2 s' e' = view st s' e'

/-- Modelled from the spec: the state of a store that obeys section 4.2, a clock
and the records by identity. -/
structure Db where
  clock : Nat → Timestamp
  tick : Nat
  rows : List ((JsString × JsString) × AttendanceRecord)

/-- Modelled from the spec: the record of an identity among the rows of the
store. -/
def findRow : List ((JsString × JsString) × AttendanceRecord) → JsString → JsString →
    Option AttendanceRecord
  | [], _, _ => none
  | ((s', e'), r) :: rest, s, e => if (s', e') = (s, e) then some r else findRow rest s e

/-- Modelled from the spec: write the record of an identity among the rows of
the store: replace it, or append a new row (one record per identity). -/
def putRow : List ((JsString × JsString) × AttendanceRecord) → JsString → JsString →
    AttendanceRecord → List ((JsString × JsString) × AttendanceRecord)
  | [], s, e, r => [((s, e), r)]
  | ((s', e'), r') :: rest, s, e, r =>
    if (s', e') = (s, e) then ((s', e'), r) :: rest else ((s', e'), r') :: putRow rest s e r

/-- Modelled from the spec: the record of an identity in a store state. -/
def Db.view (db : Db) (s e : JsString) : Option AttendanceRecord := findRow db.rows s e

/-- Modelled from the spec: the current time (`now`) of a store state. -/
def Db.now (db : Db) : Timestamp := db.clock db.tick

/-- Modelled from the spec: a field of a row as a JavaScript value, the text of
the timestamp, or `null` when absent. -/
def stampVal : Option Timestamp → JsVal
  | none => .null
  | some t => .str t.text

/-- Modelled from the spec: a row as the JavaScript object the store returns. -/
def rowVal (s e : JsString) (r : AttendanceRecord) : JsVal :=
  .obj [(js "seminar_id", .str s), (js "participant_email", .str e),
    (js "time_in", stampVal r.timeIn), (js "time_out", stampVal r.timeOut)]

/-- Modelled from the spec: the reply `{ data, error: null }`, the row singly or
in a one-element array (section 6). -/
def okReply (wrap : Bool) (row : JsVal) : Reply :=
  .resolved (.obj [(js "data", if wrap then .arr [row] else row), (js "error", .null)])

/-- Modelled from the spec: the reply `{ data: null, error }` with an error
object (section 6). -/
def errorReply : Reply :=
  .resolved (.obj [(js "data", .null), (js "error", .obj [(js "message", .str (js "failed"))])])

/-- Modelled from the spec: "record time-in" (section 4.2, step 1).  `wrap`
chooses the shape of `data`. -/
def specRecordTimeIn (wrap : Bool) (seminarId email : JsVal) (db : Db) : Reply × Db :=
  match seminarId, email with
  | .str s, .str e =>
    match db.view s e with
    | none =>
      (okReply wrap (rowVal s e ⟨some db.now, none⟩),
        { db with tick := db.tick + 1, rows := putRow db.rows s e ⟨some db.now, none⟩ })
    | some r =>
      match r.timeIn with
      | none =>
        (okReply wrap (rowVal s e ⟨some db.now, r.timeOut⟩),
          { db with tick := db.tick + 1, rows := putRow db.rows s e ⟨some db.now, r.timeOut⟩ })
      | some _ => (okReply wrap (rowVal s e r), { db with tick := db.tick + 1 })
  | _, _ => (errorReply, db)

/-- Modelled from the spec: "record time-out" (section 4.2, step 3).  The
specification leaves open the call on an identity without a record or without
`timeIn`; this store answers it with an error. -/
def specRecordTimeOut (wrap : Bool) (seminarId email : JsVal) (db : Db) : Reply × Db :=
  match seminarId, email with
  | .str s, .str e =>
    match db.view s e with
    | none => (errorReply, db)
    | some r =>
      match r.timeIn, r.timeOut with
      | some _, none =>
        (okReply wrap (rowVal s e ⟨r.timeIn, some db.now⟩),
          { db with tick := db.tick + 1, rows := putRow db.rows s e ⟨r.timeIn, some db.now⟩ })
      | _, _ => (okReply wrap (rowVal s e r), { db with tick := db.tick + 1 })
  | _, _ => (errorReply, db)

/-- Modelled from the spec: a store that obeys section 4.2. -/
def specStore (wrap : Bool) : Store Db := ⟨specRecordTimeIn wrap, specRecordTimeOut wrap⟩

/-- A clock: the text `T` followed by `n` zeros at tick `n`. -/
def demoClock (n : Nat) : Timestamp := ⟨84 :: List.replicate n 48, by simp⟩

/-- The empty store. -/
def emptyDb : Db := ⟨demoClock, 0, []⟩

/-! ## Auxiliary definitions for the statements -/

/-- The text is a structured payload with both fields non-empty: `JSON.parse`
accepts it and both `seminar_id` and `participant_email` of the result are
truthy (the test of line 37). -/
def isStructured (text : JsString) : Bool :=
  match JSONparse text with
  | none => false
  | some parsed =>
    match getProp parsed (js "seminar_id"), getProp parsed (js "participant_email") with
    | some seminarId, some email => toBoolean seminarId && toBoolean email
    | _, _ => false

/-- The store state after `n` scans of the same text. -/
def scanAgain {σ : Type} (S : Store σ) (text : JsString) : Nat → σ → σ
  | 0, st => st
  | n + 1, st => scanAgain S text n (onScanSuccess S text st).store

/-- A store whose every call answers with an error and changes nothing. -/
def failingStore : Store Unit := ⟨fun _ _ u => (errorReply, u), fun _ _ u => (errorReply, u)⟩

/-- A store state in which the identity `("42", "p@q.io")` has both fields set. -/
def doneDb : Db :=
  ⟨demoClock, 2, [((js "42", js "p@q.io"), ⟨some (demoClock 0), some (demoClock 1)⟩)]⟩

/-! ## The automaton on quoted strings -/

theorem run_append (s : PState) (a b : List Nat) :
    run s (a ++ b) = (run s a).bind (fun s' => run s' b) := by
  induction a generalizing s with
  | nil => simp [run]
  | cons c a ih =>
    simp only [List.cons_append, run]
    cases h : step s c with
    | none => simp
    | some s' => simpa using ih s'

theorem hexVal_hexDigit (d : Nat) (h : d < 16) : hexVal (hexDigit d) = some d := by
  unfold hexVal hexDigit
  split_ifs <;> first | omega | (congr 1; omega)

theorem run_str_literal (k : Bool) (acc : JsString) (stack : List Frame) (c : Nat) (rest : List Nat)
    (h34 : c ≠ 34) (h92 : c ≠ 92) (h32 : ¬ c < 32) :
    run ⟨.str k acc, stack⟩ (c :: rest) = run ⟨.str k (acc ++ [c]), stack⟩ rest := by
  simp [run, step, h34, h92, h32]

theorem run_unicodeEscape (k : Bool) (acc : JsString) (stack : List Frame) (c : Nat)
    (rest : List Nat) (h : c < 65536) :
    run ⟨.str k acc, stack⟩ (unicodeEscape c ++ rest) = run ⟨.str k (acc ++ [c]), stack⟩ rest := by
  have h3 := hexVal_hexDigit (c / 4096 % 16) (Nat.mod_lt _ (by norm_num))
  have h2 := hexVal_hexDigit (c / 256 % 16) (Nat.mod_lt _ (by norm_num))
  have h1 := hexVal_hexDigit (c / 16 % 16) (Nat.mod_lt _ (by norm_num))
  have h0 := hexVal_hexDigit (c % 16) (Nat.mod_lt _ (by norm_num))
  have hc : ((c / 4096 % 16 * 16 + c / 256 % 16) * 16 + c / 16 % 16) * 16 + c % 16 = c := by
    omega
  simp only [unicodeEscape, List.cons_append, List.nil_append, run, step]
  simp [h3, h2, h1, h0, run, step, hc]

theorem run_quoteOne (k : Bool) (acc : JsString) (stack : List Frame) (c : Nat) (rest : List Nat) :
    run ⟨.str k acc, stack⟩ (quoteOne c ++ rest) = run ⟨.str k (acc ++ [c]), stack⟩ rest := by
  unfold quoteOne
  split_ifs with h8 h9 h10 h12 h13 h34 h92 hesc
  all_goals try (subst_vars; simp [run, step]; done)
  · apply run_unicodeEscape
    simp only [isHigh, isLow, Bool.and_eq_true, decide_eq_true_eq] at hesc
    omega
  · apply run_str_literal <;> simp_all

theorem run_quoteUnits (k : Bool) (stack : List Frame) (rest : List Nat) (s : List Nat) :
    ∀ (paired : Bool) (acc : JsString), (paired = true → startsLow s = true) →
      run ⟨.str k acc, stack⟩ (quoteUnits paired s ++ rest) = run ⟨.str k (acc ++ s), stack⟩ rest := by
  induction s with
  | nil => intro paired acc _; simp [quoteUnits]
  | cons c s ih =>
    intro paired acc hp
    unfold quoteUnits
    split_ifs with h1 h2
    · have hlow := hp h1
      simp only [startsLow, isLow, Bool.and_eq_true, decide_eq_true_eq] at hlow
      rw [List.cons_append, run_str_literal k acc stack c _ (by omega) (by omega) (by omega),
        ih false (acc ++ [c]) (by simp)]
      simp
    · simp only [Bool.and_eq_true, isHigh, decide_eq_true_eq] at h2
      rw [List.cons_append, run_str_literal k acc stack c _ (by omega) (by omega) (by omega),
        ih true (acc ++ [c]) (fun _ => h2.2)]
      simp
    · rw [List.append_assoc, run_quoteOne, ih false (acc ++ [c]) (by simp)]
      simp

theorem quote_seminar_id :
    quoteJSONString (js "seminar_id") = [34, 115, 101, 109, 105, 110, 97, 114, 95, 105, 100, 34] := by
  rfl

theorem quote_participant_email :
    quoteJSONString (js "participant_email") =
      [34, 112, 97, 114, 116, 105, 99, 105, 112, 97, 110, 116, 95, 101, 109, 97, 105, 108, 34] := by
  rfl

theorem ParticipantQRCode_eq (s e : JsString) :
    ParticipantQRCode s e =
      [123, 34, 115, 101, 109, 105, 110, 97, 114, 95, 105, 100, 34, 58, 34] ++
        (quoteUnits false s ++
          ([34, 44, 34, 112, 97, 114, 116, 105, 99, 105, 112, 97, 110, 116, 95, 101, 109, 97, 105, 108,
              34, 58, 34] ++
            (quoteUnits false e ++ [34, 125]))) := by
  unfold ParticipantQRCode JSONstringify stringifyMembers stringifyMembers
  rw [quote_seminar_id, quote_participant_email]
  simp [quoteJSONString]

theorem JSONparse_ParticipantQRCode (s e : JsString) :
    JSONparse (ParticipantQRCode s e) =
      some (.obj [(js "seminar_id", .str s), (js "participant_email", .str e)]) := by
  have h1 : run ⟨.value, []⟩
      [123, 34, 115, 101, 109, 105, 110, 97, 114, 95, 105, 100, 34, 58, 34] =
      some ⟨.str false [], [.obj [] (js "seminar_id")]⟩ := rfl
  have h2 : run ⟨.str false s, [.obj [] (js "seminar_id")]⟩
      [34, 44, 34, 112, 97, 114, 116, 105, 99, 105, 112, 97, 110, 116, 95, 101, 109, 97, 105, 108,
        34, 58, 34] =
      some ⟨.str false [], [.obj [(js "seminar_id", .str s)] (js "participant_email")]⟩ := rfl
  have h3 : run ⟨.str false e, [.obj [(js "seminar_id", .str s)] (js "participant_email")]⟩
      [34, 125] =
      some ⟨.done (.obj [(js "seminar_id", .str s), (js "participant_email", .str e)]), []⟩ := rfl
  have hs := run_quoteUnits false [.obj [] (js "seminar_id")] [] s false [] (by simp)
  have he := run_quoteUnits false [.obj [(js "seminar_id", .str s)] (js "participant_email")] []
    e false [] (by simp)
  simp only [List.append_nil, List.nil_append, run] at hs he
  unfold JSONparse
  rw [ParticipantQRCode_eq, run_append, h1, Option.some_bind, run_append, hs, Option.some_bind,
    run_append, h2, Option.some_bind, run_append, he, Option.some_bind, h3]
  rfl

/-! ## `parsePayload` -/

theorem seminar_id_ne_participant_email : js "seminar_id" ≠ js "participant_email" := by decide

theorem parsePayloadTry_of_structured (text : JsString) (h : isStructured text = true) :
    ∃ parsed, JSONparse text = some parsed ∧ parsePayloadTry text = some parsed := by
  unfold isStructured at h
  unfold parsePayloadTry
  cases hp : JSONparse text with
  | none => simp [hp] at h
  | some parsed =>
    refine ⟨parsed, rfl, ?_⟩
    simp only [hp] at h ⊢
    cases h1 : getProp parsed (js "seminar_id") with
    | none => simp [h1] at h
    | some sid =>
      cases h2 : getProp parsed (js "participant_email") with
      | none => simp [h1, h2] at h
      | some email =>
        simp only [h1, h2, Bool.and_eq_true] at h ⊢
        simp [h.1, h.2]

theorem parsePayload_of_not_structured (text : JsString) (h : isStructured text = false) :
    parsePayload text = fallbackSplit text := by
  unfold isStructured at h
  unfold parsePayload parsePayloadTry
  cases hp : JSONparse text with
  | none => simp
  | some parsed =>
    simp only [hp] at h ⊢
    cases h1 : getProp parsed (js "seminar_id") with
    | none => simp
    | some sid =>
      cases h2 : getProp parsed (js "participant_email") with
      | none =>
        simp only [h1, h2] at h ⊢
        split_ifs <;> rfl
      | some email =>
        simp only [h1, h2, Bool.and_eq_false_iff] at h ⊢
        rcases h with h | h
        · simp [h]
        · simp [h]

theorem getProp_truthy_obj (v w : JsVal) (name : JsString) (h : getProp v name = some w)
    (hw : toBoolean w = true) : ∃ fields, v = .obj fields := by
  cases v with
  | obj fields => exact ⟨fields, rfl⟩
  | undefined => simp [getProp] at h
  | null => simp [getProp] at h
  | bool b => simp only [getProp, Option.some.injEq] at h; subst h; simp [toBoolean] at hw
  | num n m x => simp only [getProp, Option.some.injEq] at h; subst h; simp [toBoolean] at hw
  | str t => simp only [getProp, Option.some.injEq] at h; subst h; simp [toBoolean] at hw
  | arr xs => simp only [getProp, Option.some.injEq] at h; subst h; simp [toBoolean] at hw

theorem fallbackSplit_null_or_obj (text : JsString) :
    fallbackSplit text = .null ∨ ∃ fields, fallbackSplit text = .obj fields := by
  unfold fallbackSplit
  split_ifs
  · exact Or.inr ⟨_, rfl⟩
  · exact Or.inl rfl

theorem parsePayload_null_or_obj (text : JsString) :
    parsePayload text = .null ∨ ∃ fields, parsePayload text = .obj fields := by
  cases h : isStructured text with
  | false => rw [parsePayload_of_not_structured text h]; exact fallbackSplit_null_or_obj text
  | true =>
    obtain ⟨parsed, hp, ht⟩ := parsePayloadTry_of_structured text h
    right
    unfold isStructured at h
    simp only [hp] at h
    cases h1 : getProp parsed (js "seminar_id") with
    | none => simp [h1] at h
    | some sid =>
      cases h2 : getProp parsed (js "participant_email") with
      | none => simp [h1, h2] at h
      | some email =>
        simp only [h1, h2, Bool.and_eq_true] at h
        obtain ⟨fields, hf⟩ := getProp_truthy_obj parsed sid _ h1 h.1
        exact ⟨fields, by simp [parsePayload, ht, hf]⟩

theorem split_no_sep (text : JsString) (sep : Nat) (h : sep ∉ text) : split text sep = [text] := by
  induction text with
  | nil => rfl
  | cons c rest ih =>
    simp only [List.mem_cons, not_or] at h
    have hc : c ≠ sep := fun hh => h.1 hh.symm
    simp [split, hc, ih h.2]

theorem split_two (s e : JsString) (sep : Nat) (hs : sep ∉ s) (he : sep ∉ e) :
    split (s ++ [sep] ++ e) sep = [s, e] := by
  induction s with
  | nil => simp [split, split_no_sep e sep he]
  | cons c rest ih =>
    simp only [List.mem_cons, not_or] at hs
    have hc : c ≠ sep := fun hh => hs.1 hh.symm
    have := ih hs.2
    simp only [List.append_assoc, List.cons_append, List.nil_append] at this ⊢
    simp [split, hc, this]

/-! ## Claims about `parsePayload` -/

/-- C4 (round trip): for non-empty strings `s` and `e`, `parsePayload` applied to
the payload that `ParticipantQRCode` produces returns the object
`{seminar_id: s, participant_email: e}`, whatever code units `s` and `e`
contain (the delimiter, quotes, backslashes, control characters, surrogates). -/
theorem parsePayload_ParticipantQRCode (s e : JsString) (hs : s ≠ []) (he : e ≠ []) :
    parsePayload (ParticipantQRCode s e) =
        .obj [(js "seminar_id", .str s), (js "participant_email", .str e)] ∧
      getProp (parsePayload (ParticipantQRCode s e)) (js "seminar_id") = some (.str s) ∧
      getProp (parsePayload (ParticipantQRCode s e)) (js "participant_email") = some (.str e) := by
  have hst : isStructured (ParticipantQRCode s e) = true := by
    unfold isStructured
    rw [JSONparse_ParticipantQRCode]
    cases s with
    | nil => exact absurd rfl hs
    | cons a s =>
      cases e with
      | nil => exact absurd rfl he
      | cons b e => simp [getProp, lookupField, seminar_id_ne_participant_email, toBoolean]
  obtain ⟨parsed, hp, ht⟩ := parsePayloadTry_of_structured _ hst
  rw [JSONparse_ParticipantQRCode] at hp
  have hpay : parsePayload (ParticipantQRCode s e) =
      .obj [(js "seminar_id", .str s), (js "participant_email", .str e)] := by
    unfold parsePayload
    rw [ht]
    exact (Option.some.inj hp).symm
  rw [hpay]
  simp [getProp, lookupField, seminar_id_ne_participant_email]

theorem parsePayload_ParticipantQRCode_witness :
    parsePayload (ParticipantQRCode (js "4|2\"\\") (js "p|q@\"x\\y\".io")) =
        .obj [(js "seminar_id", .str (js "4|2\"\\")),
          (js "participant_email", .str (js "p|q@\"x\\y\".io"))] ∧
      getProp (parsePayload (ParticipantQRCode (js "4|2\"\\") (js "p|q@\"x\\y\".io")))
        (js "seminar_id") = some (.str (js "4|2\"\\")) ∧
      getProp (parsePayload (ParticipantQRCode (js "4|2\"\\") (js "p|q@\"x\\y\".io")))
        (js "participant_email") = some (.str (js "p|q@\"x\\y\".io")) :=
  parsePayload_ParticipantQRCode (js "4|2\"\\") (js "p|q@\"x\\y\".io") (by decide) (by decide)

/-- C6 (primary format first): when `JSON.parse` accepts the text and the
`seminar_id` and `participant_email` of the result are both truthy,
`parsePayload` returns the parsed object itself, so its two fields are the ones
read from the structured text; whether the text contains `"|"` plays no part. -/
theorem parsePayload_primary_first (text : JsString) (parsed seminarId email : JsVal)
    (hparse : JSONparse text = some parsed)
    (hsid : getProp parsed (js "seminar_id") = some seminarId)
    (hemail : getProp parsed (js "participant_email") = some email)
    (hsidSet : toBoolean seminarId = true) (hemailSet : toBoolean email = true) :
    parsePayload text = parsed ∧
      getProp (parsePayload text) (js "seminar_id") = some seminarId ∧
      getProp (parsePayload text) (js "participant_email") = some email := by
  have hpay : parsePayload text = parsed := by
    unfold parsePayload parsePayloadTry
    simp [hparse, hsid, hemail, hsidSet, hemailSet]
  rw [hpay]
  exact ⟨rfl, hsid, hemail⟩

theorem parsePayload_primary_first_witness :
    includes (js "\x7b\"seminar_id\":\"1|2\",\"participant_email\":\"a|b\"\x7d") pipe = true ∧
      (parsePayload (js "\x7b\"seminar_id\":\"1|2\",\"participant_email\":\"a|b\"\x7d") =
          .obj [(js "seminar_id", .str (js "1|2")), (js "participant_email", .str (js "a|b"))] ∧
        getProp (parsePayload (js "\x7b\"seminar_id\":\"1|2\",\"participant_email\":\"a|b\"\x7d"))
          (js "seminar_id") = some (.str (js "1|2")) ∧
        getProp (parsePayload (js "\x7b\"seminar_id\":\"1|2\",\"participant_email\":\"a|b\"\x7d"))
          (js "participant_email") = some (.str (js "a|b"))) :=
  ⟨rfl, parsePayload_primary_first (js "\x7b\"seminar_id\":\"1|2\",\"participant_email\":\"a|b\"\x7d")
    (.obj [(js "seminar_id", .str (js "1|2")), (js "participant_email", .str (js "a|b"))])
    (.str (js "1|2")) (.str (js "a|b")) rfl rfl rfl rfl rfl⟩

/-- C7 (fallback format): for non-empty strings `s` and `e` without `"|"`, when
the text `s + "|" + e` is not a structured payload with both fields non-empty,
`parsePayload` returns the object `{seminar_id: s, participant_email: e}`, a
truthy payload whose two fields are truthy; this holds whether `JSON.parse`
rejects the text or accepts it as some other value. -/
theorem parsePayload_fallback (s e : JsString) (hs : s ≠ []) (he : e ≠ [])
    (hsPipe : pipe ∉ s) (hePipe : pipe ∉ e)
    (hns : isStructured (s ++ [pipe] ++ e) = false) :
    parsePayload (s ++ [pipe] ++ e) =
        .obj [(js "seminar_id", .str s), (js "participant_email", .str e)] ∧
      getProp (parsePayload (s ++ [pipe] ++ e)) (js "seminar_id") = some (.str s) ∧
      getProp (parsePayload (s ++ [pipe] ++ e)) (js "participant_email") = some (.str e) ∧
      toBoolean (parsePayload (s ++ [pipe] ++ e)) = true ∧
      toBoolean (.str s) = true ∧ toBoolean (.str e) = true := by
  have hpay : parsePayload (s ++ [pipe] ++ e) =
      .obj [(js "seminar_id", .str s), (js "participant_email", .str e)] := by
    rw [parsePayload_of_not_structured _ hns]
    unfold fallbackSplit
    have hinc : includes (s ++ [pipe] ++ e) pipe = true := by simp [includes]
    simp only [hinc, if_true, split_two s e pipe hsPipe hePipe, List.map, elemAt]
  have hst : toBoolean (.str s) = true := by
    cases s with
    | nil => exact absurd rfl hs
    | cons a s => rfl
  have het : toBoolean (.str e) = true := by
    cases e with
    | nil => exact absurd rfl he
    | cons a e => rfl
  rw [hpay]
  refine ⟨rfl, ?_, ?_, rfl, hst, het⟩ <;> simp [getProp, lookupField, seminar_id_ne_participant_email]

theorem parsePayload_fallback_witness :
    parsePayload (js "\"12" ++ [pipe] ++ js "a@b.com\"") =
        .obj [(js "seminar_id", .str (js "\"12")), (js "participant_email", .str (js "a@b.com\""))] ∧
      getProp (parsePayload (js "\"12" ++ [pipe] ++ js "a@b.com\"")) (js "seminar_id") =
        some (.str (js "\"12")) ∧
      getProp (parsePayload (js "\"12" ++ [pipe] ++ js "a@b.com\"")) (js "participant_email") =
        some (.str (js "a@b.com\"")) ∧
      toBoolean (parsePayload (js "\"12" ++ [pipe] ++ js "a@b.com\"")) = true ∧
      toBoolean (.str (js "\"12")) = true ∧ toBoolean (.str (js "a@b.com\"")) = true :=
  parsePayload_fallback (js "\"12") (js "a@b.com\"") (by decide) (by decide) (by decide)
    (by decide) rfl

/-- C8 (invalid payload): a text without `"|"` that is not a structured payload
with both fields non-empty makes `parsePayload` return `null`: when
`JSON.parse` throws, when reading a field of the parsed value throws (`null`),
and when a field is missing or falsy alike.  The function returns in each case:
an exception of the `try` block is caught. -/
theorem parsePayload_invalid (text : JsString) (hpipe : includes text pipe = false)
    (hns : isStructured text = false) :
    parsePayload text = .null ∧ toBoolean (parsePayload text) = false := by
  have hpay : parsePayload text = .null := by
    rw [parsePayload_of_not_structured _ hns]
    simp [fallbackSplit, hpipe]
  rw [hpay]
  exact ⟨rfl, rfl⟩

theorem parsePayload_invalid_witness :
    (parsePayload (js "abc") = .null ∧ toBoolean (parsePayload (js "abc")) = false) :=
  parsePayload_invalid (js "abc") rfl rfl

/-- C5 (failing input): the text `|x` is not a structured payload and its split
on `"|"` has an empty first part, yet `parsePayload` returns an object, with
`seminar_id` the empty string, and `onScanSuccess` goes on to call the store
with it; `manualCheckInOut` refuses the same two values.  Likewise `a|b|c`,
three parts, is returned as the identity `(a, b)`. -/
theorem parsePayload_accepts_empty_part :
    isStructured (js "|x") = false ∧ split (js "|x") pipe = [[], js "x"] ∧
      parsePayload (js "|x") =
        .obj [(js "seminar_id", .str []), (js "participant_email", .str (js "x"))] ∧
      parsePayload (js "|x") ≠ .null ∧
      (onScanSuccess failingStore (js "|x") ()).calls = [.timeIn (.str []) (.str (js "x"))] ∧
      (manualCheckInOut failingStore [] (js "x") ()).outcome = .missingInput ∧
      (manualCheckInOut failingStore [] (js "x") ()).calls = [] ∧
      isStructured (js "a|b|c") = false ∧ split (js "a|b|c") pipe = [js "a", js "b", js "c"] ∧
      parsePayload (js "a|b|c") =
        .obj [(js "seminar_id", .str (js "a")), (js "participant_email", .str (js "b"))] := by
  refine ⟨rfl, rfl, rfl, ?_, rfl, rfl, rfl, rfl, rfl, rfl⟩
  intro h
  have h2 : parsePayload (js "|x") =
      .obj [(js "seminar_id", .str []), (js "participant_email", .str (js "x"))] := rfl
  rw [h2] at h
  exact JsVal.noConfusion h

/-! ## The resolver -/

theorem time_in_ne_time_out : js "time_in" ≠ js "time_out" := by decide

theorem hasTimeIn_singleton (r : JsVal) (h : isArray r = false) :
    hasTimeIn (.arr [r]) = hasTimeIn r := by
  cases r <;> simp_all [hasTimeIn, isArray, index, elemAt]

theorem hasTimeOut_singleton (r : JsVal) (h : isArray r = false) :
    hasTimeOut (.arr [r]) = hasTimeOut r := by
  cases r <;> simp_all [hasTimeOut, isArray, index, elemAt]

theorem flags_of_carries (data : JsVal) (r : AttendanceRecord) (h : CarriesRecord data r) :
    hasTimeIn data = r.timeIn.isSome ∧ hasTimeOut data = r.timeOut.isSome := by
  obtain ⟨fields, hshape, hin, hout⟩ := h
  rcases hshape with h | h
  · subst h
    exact ⟨hin, hout⟩
  · subst h
    rw [hasTimeIn_singleton (.obj fields) rfl, hasTimeOut_singleton (.obj fields) rfl]
    exact ⟨hin, hout⟩

theorem payload_truthy (text : JsString) (v : JsVal) (name : JsString)
    (h : getProp (parsePayload text) name = some v) : toBoolean (parsePayload text) = true := by
  rcases parsePayload_null_or_obj text with h0 | ⟨fields, h0⟩
  · rw [h0] at h; simp [getProp] at h
  · rw [h0]; rfl

/-- What `onScanSuccess` does once the two fields of the payload are known. -/
theorem onScanSuccess_of_fields {σ : Type} (S : Store σ) (text : JsString) (st : σ)
    (seminarId email : JsVal)
    (hsid : getProp (parsePayload text) (js "seminar_id") = some seminarId)
    (hemail : getProp (parsePayload text) (js "participant_email") = some email) :
    onScanSuccess S text st =
      match S.recordTimeIn seminarId email st with
      | (.rejected, st1) => ⟨.threw, [.timeIn seminarId email], st1⟩
      | (.resolved inRes, st1) =>
        match getProp inRes (js "error"), getProp inRes (js "data") with
        | some error, some data =>
          if toBoolean error then ⟨.errorIn, [.timeIn seminarId email], st1⟩
          else if hasTimeIn data && !hasTimeOut data then
            ⟨.checkedIn, [.timeIn seminarId email], st1⟩
          else
            match S.recordTimeOut seminarId email st1 with
            | (.rejected, st2) =>
              ⟨.threw, [.timeIn seminarId email, .timeOut seminarId email], st2⟩
            | (.resolved outRes, st2) =>
              match getProp outRes (js "error") with
              | some error2 =>
                if toBoolean error2 then
                  ⟨.errorOut, [.timeIn seminarId email, .timeOut seminarId email], st2⟩
                else ⟨.checkedOut, [.timeIn seminarId email, .timeOut seminarId email], st2⟩
              | none => ⟨.threw, [.timeIn seminarId email, .timeOut seminarId email], st2⟩
        | _, _ => ⟨.threw, [.timeIn seminarId email], st1⟩ := by
  unfold onScanSuccess
  simp only [payload_truthy text seminarId _ hsid, hsid, hemail]
  rfl

/-- Under the contract, a scan of an identity is decided by the record the
store holds after the time-in attempt. -/
theorem onScanSuccess_under_contract {σ : Type} (S : Store σ)
    (view : σ → JsString → JsString → Option AttendanceRecord) (hc : ObeysContract S view)
    (text : JsString) (s e : JsString) (st : σ)
    (hsid : getProp (parsePayload text) (js "seminar_id") = some (.str s))
    (hemail : getProp (parsePayload text) (js "participant_email") = some (.str e)) :
    ∃ r, view (S.recordTimeIn (.str s) (.str e) st).2 s e = some r ∧
      onScanSuccess S text st =
        if r.timeIn.isSome && !r.timeOut.isSome then
          ⟨.checkedIn, [.timeIn (.str s) (.str e)], (S.recordTimeIn (.str s) (.str e) st).2⟩
        else
          ⟨.checkedOut, [.timeIn (.str s) (.str e), .timeOut (.str s) (.str e)],
            (S.recordTimeOut (.str s) (.str e) (S.recordTimeIn (.str s) (.str e) st).2).2⟩ := by
  obtain ⟨r, hview, fields, hreply, herr, hdata⟩ := hc.timeIn_returns st s e
  refine ⟨r, hview, ?_⟩
  obtain ⟨hin, hout⟩ := flags_of_carries _ _ hdata
  rw [onScanSuccess_of_fields S text st _ _ hsid hemail]
  rcases hcall : S.recordTimeIn (.str s) (.str e) st with ⟨reply, st1⟩
  rw [hcall] at hreply hview
  simp only at hreply hview
  subst hreply
  simp only [getProp, herr, hin, hout, Bool.false_eq_true, if_false]
  by_cases hdec : (r.timeIn.isSome && !r.timeOut.isSome) = true
  · simp only [hdec, if_true]
  · simp only [hdec, if_false]
    obtain ⟨r', -, fields', hreply', herr', -⟩ := hc.timeOut_returns st1 s e r hview
    rcases hcall' : S.recordTimeOut (.str s) (.str e) st1 with ⟨reply', st2⟩
    rw [hcall'] at hreply'
    simp only at hreply'
    subst hreply'
    simp only [getProp, herr', Bool.false_eq_true, if_false]

/-! ## The store written from section 4.2 obeys the contract -/

theorem findRow_putRow_same (rows : List ((JsString × JsString) × AttendanceRecord))
    (s e : JsString) (r : AttendanceRecord) : findRow (putRow rows s e r) s e = some r := by
  induction rows with
  | nil => simp [putRow, findRow]
  | cons row rows ih =>
    obtain ⟨⟨s', e'⟩, r'⟩ := row
    by_cases h : (s', e') = (s, e)
    · simp [putRow, findRow, h]
    · simp [putRow, findRow, h, ih]

theorem findRow_putRow_other (rows : List ((JsString × JsString) × AttendanceRecord))
    (s e s' e' : JsString) (r : AttendanceRecord) (hne : (s', e') ≠ (s, e)) :
    findRow (putRow rows s e r) s' e' = findRow rows s' e' := by
  induction rows with
  | nil =>
    have : (s, e) ≠ (s', e') := fun h => hne h.symm
    simp [putRow, findRow, this]
  | cons row rows ih =>
    obtain ⟨⟨s0, e0⟩, r0⟩ := row
    by_cases h : (s0, e0) = (s, e)
    · have h' : (s0, e0) ≠ (s', e') := fun hh => hne (hh.symm.trans h)
      rw [putRow, if_pos h, findRow, if_neg h', findRow, if_neg h']
    · rw [putRow, if_neg h]
      by_cases h' : (s0, e0) = (s', e')
      · rw [findRow, if_pos h', findRow, if_pos h']
      · rw [findRow, if_neg h', findRow, if_neg h', ih]

theorem toBoolean_stampVal (t : Option Timestamp) : toBoolean (stampVal t) = t.isSome := by
  cases t with
  | none => rfl
  | some t =>
    have := t.nonempty
    cases ht : t.text with
    | nil => exact absurd ht this
    | cons a l => simp [stampVal, toBoolean, ht]

theorem rowVal_carries (s e : JsString) (r : AttendanceRecord) (wrap : Bool) :
    CarriesRecord (if wrap = true then JsVal.arr [rowVal s e r] else rowVal s e r) r := by
  refine ⟨[(js "seminar_id", .str s), (js "participant_email", .str e),
      (js "time_in", stampVal r.timeIn), (js "time_out", stampVal r.timeOut)], ?_, ?_, ?_⟩
  · cases wrap
    · left; rfl
    · right; rfl
  · have : lookupField [(js "seminar_id", JsVal.str s), (js "participant_email", JsVal.str e),
        (js "time_in", stampVal r.timeIn), (js "time_out", stampVal r.timeOut)] (js "time_in") =
        stampVal r.timeIn := by
      have h1 : js "seminar_id" ≠ js "time_in" := by decide
      have h2 : js "participant_email" ≠ js "time_in" := by decide
      simp [lookupField, h1, h2]
    rw [this, toBoolean_stampVal]
  · have : lookupField [(js "seminar_id", JsVal.str s), (js "participant_email", JsVal.str e),
        (js "time_in", stampVal r.timeIn), (js "time_out", stampVal r.timeOut)] (js "time_out") =
        stampVal r.timeOut := by
      have h1 : js "seminar_id" ≠ js "time_out" := by decide
      have h2 : js "participant_email" ≠ js "time_out" := by decide
      simp [lookupField, h1, h2, time_in_ne_time_out]
    rw [this, toBoolean_stampVal]

theorem okReply_returns (wrap : Bool) (s e : JsString) (r : AttendanceRecord) :
    ReturnsRecord (okReply wrap (rowVal s e r)) r := by
  refine ⟨_, rfl, rfl, ?_⟩
  have hdata : lookupField
      [(js "data", if wrap = true then JsVal.arr [rowVal s e r] else rowVal s e r),
        (js "error", JsVal.null)] (js "data") =
      if wrap = true then JsVal.arr [rowVal s e r] else rowVal s e r := by
    simp [lookupField]
  rw [hdata]
  exact rowVal_carries s e r wrap

theorem specRecordTimeIn_new (wrap : Bool) (s e : JsString) (db : Db)
    (h : db.view s e = none) :
    specRecordTimeIn wrap (.str s) (.str e) db =
      (okReply wrap (rowVal s e ⟨some db.now, none⟩),
        { db with tick := db.tick + 1, rows := putRow db.rows s e ⟨some db.now, none⟩ }) := by
  simp only [specRecordTimeIn, h]

theorem specRecordTimeIn_set (wrap : Bool) (s e : JsString) (db : Db) (r : AttendanceRecord)
    (h : db.view s e = some r) (hin : r.timeIn = none) :
    specRecordTimeIn wrap (.str s) (.str e) db =
      (okReply wrap (rowVal s e ⟨some db.now, r.timeOut⟩),
        { db with tick := db.tick + 1, rows := putRow db.rows s e ⟨some db.now, r.timeOut⟩ }) := by
  simp only [specRecordTimeIn, h, hin]

theorem specRecordTimeIn_noop (wrap : Bool) (s e : JsString) (db : Db) (r : AttendanceRecord)
    (h : db.view s e = some r) (hin : r.timeIn.isSome = true) :
    specRecordTimeIn wrap (.str s) (.str e) db =
      (okReply wrap (rowVal s e r), { db with tick := db.tick + 1 }) := by
  cases hr : r.timeIn with
  | none => simp [hr] at hin
  | some t => simp only [specRecordTimeIn, h, hr]

theorem specRecordTimeOut_none (wrap : Bool) (s e : JsString) (db : Db)
    (h : db.view s e = none) :
    specRecordTimeOut wrap (.str s) (.str e) db = (errorReply, db) := by
  simp only [specRecordTimeOut, h]

theorem specRecordTimeOut_set (wrap : Bool) (s e : JsString) (db : Db) (r : AttendanceRecord)
    (h : db.view s e = some r) (hin : r.timeIn.isSome = true) (hout : r.timeOut = none) :
    specRecordTimeOut wrap (.str s) (.str e) db =
      (okReply wrap (rowVal s e ⟨r.timeIn, some db.now⟩),
        { db with tick := db.tick + 1, rows := putRow db.rows s e ⟨r.timeIn, some db.now⟩ }) := by
  cases hr : r.timeIn with
  | none => simp [hr] at hin
  | some t => simp only [specRecordTimeOut, h, hr, hout]

theorem specRecordTimeOut_noop (wrap : Bool) (s e : JsString) (db : Db) (r : AttendanceRecord)
    (h : db.view s e = some r) (hcase : r.timeIn = none ∨ r.timeOut.isSome = true) :
    specRecordTimeOut wrap (.str s) (.str e) db =
      (okReply wrap (rowVal s e r), { db with tick := db.tick + 1 }) := by
  cases hr : r.timeIn with
  | none => simp only [specRecordTimeOut, h, hr]
  | some t =>
    cases ho : r.timeOut with
    | none => simp [hr, ho] at hcase
    | some t' => simp only [specRecordTimeOut, h, hr, ho]

theorem specStore_obeys (wrap : Bool) : ObeysContract (specStore wrap) Db.view where
  timeIn_create := by
    intro st s e h
    refine ⟨st.now, ?_⟩
    show Db.view (specRecordTimeIn wrap (.str s) (.str e) st).2 s e = _
    rw [specRecordTimeIn_new wrap s e st h]
    exact findRow_putRow_same _ _ _ _
  timeIn_set := by
    intro st s e r h hin
    refine ⟨st.now, ?_⟩
    show Db.view (specRecordTimeIn wrap (.str s) (.str e) st).2 s e = _
    rw [specRecordTimeIn_set wrap s e st r h hin]
    exact findRow_putRow_same _ _ _ _
  timeIn_noop := by
    intro st s e r h hin
    show Db.view (specRecordTimeIn wrap (.str s) (.str e) st).2 = _
    rw [specRecordTimeIn_noop wrap s e st r h hin]
    rfl
  timeIn_returns := by
    intro st s e
    show ∃ r, Db.view (specRecordTimeIn wrap (.str s) (.str e) st).2 s e = some r ∧
      ReturnsRecord (specRecordTimeIn wrap (.str s) (.str e) st).1 r
    cases h : st.view s e with
    | none =>
      rw [specRecordTimeIn_new wrap s e st h]
      exact ⟨_, findRow_putRow_same _ _ _ _, okReply_returns _ _ _ _⟩
    | some r =>
      cases hr : r.timeIn with
      | none =>
        rw [specRecordTimeIn_set wrap s e st r h hr]
        exact ⟨_, findRow_putRow_same _ _ _ _, okReply_returns _ _ _ _⟩
      | some t =>
        rw [specRecordTimeIn_noop wrap s e st r h (by simp [hr])]
        exact ⟨r, h, okReply_returns _ _ _ _⟩
  timeIn_frame := by
    intro st s e s' e' hne
    show Db.view (specRecordTimeIn wrap (.str s) (.str e) st).2 s' e' = _
    cases h : st.view s e with
    | none =>
      rw [specRecordTimeIn_new wrap s e st h]
      exact findRow_putRow_other _ _ _ _ _ _ hne
    | some r =>
      cases hr : r.timeIn with
      | none =>
        rw [specRecordTimeIn_set wrap s e st r h hr]
        exact findRow_putRow_other _ _ _ _ _ _ hne
      | some t =>
        rw [specRecordTimeIn_noop wrap s e st r h (by simp [hr])]
        rfl
  timeOut_set := by
    intro st s e r h hin hout
    refine ⟨st.now, ?_⟩
    show Db.view (specRecordTimeOut wrap (.str s) (.str e) st).2 s e = _
    rw [specRecordTimeOut_set wrap s e st r h hin hout]
    exact findRow_putRow_same _ _ _ _
  timeOut_noop := by
    intro st s e r h hout
    show Db.view (specRecordTimeOut wrap (.str s) (.str e) st).2 = _
    rw [specRecordTimeOut_noop wrap s e st r h (Or.inr hout)]
    rfl
  timeOut_returns := by
    intro st s e r h
    show ∃ r', Db.view (specRecordTimeOut wrap (.str s) (.str e) st).2 s e = some r' ∧
      ReturnsRecord (specRecordTimeOut wrap (.str s) (.str e) st).1 r'
    cases hr : r.timeIn with
    | none =>
      rw [specRecordTimeOut_noop wrap s e st r h (Or.inl hr)]
      exact ⟨r, h, okReply_returns _ _ _ _⟩
    | some t =>
      cases ho : r.timeOut with
      | none =>
        rw [specRecordTimeOut_set wrap s e st r h (by simp [hr]) ho]
        exact ⟨_, findRow_putRow_same _ _ _ _, okReply_returns _ _ _ _⟩
      | some t' =>
        rw [specRecordTimeOut_noop wrap s e st r h (Or.inr (by simp [ho]))]
        exact ⟨r, h, okReply_returns _ _ _ _⟩
  timeOut_frame := by
    intro st s e s' e' hne
    show Db.view (specRecordTimeOut wrap (.str s) (.str e) st).2 s' e' = _
    cases h : st.view s e with
    | none =>
      rw [specRecordTimeOut_none wrap s e st h]
    | some r =>
      cases hr : r.timeIn with
      | none =>
        rw [specRecordTimeOut_noop wrap s e st r h (Or.inl hr)]
        rfl
      | some t =>
        cases ho : r.timeOut with
        | none =>
          rw [specRecordTimeOut_set wrap s e st r h (by simp [hr]) ho]
          exact findRow_putRow_other _ _ _ _ _ _ hne
        | some t' =>
          rw [specRecordTimeOut_noop wrap s e st r h (Or.inr (by simp [ho]))]
          rfl

/-! ## Claims about the resolver -/

theorem view_scanAgain_done {σ : Type} (S : Store σ)
    (view : σ → JsString → JsString → Option AttendanceRecord) (hc : ObeysContract S view)
    (text : JsString) (s e : JsString) (r : AttendanceRecord)
    (hsid : getProp (parsePayload text) (js "seminar_id") = some (.str s))
    (hemail : getProp (parsePayload text) (js "participant_email") = some (.str e))
    (hin : r.timeIn.isSome = true) (hout : r.timeOut.isSome = true) (st : σ)
    (hview : view st s e = some r) :
    (onScanSuccess S text st).outcome = .checkedOut ∧
      (onScanSuccess S text st).calls = [.timeIn (.str s) (.str e), .timeOut (.str s) (.str e)] ∧
      view (onScanSuccess S text st).store = view st := by
  obtain ⟨r1, hview1, hres⟩ := onScanSuccess_under_contract S view hc text s e st hsid hemail
  have hnoop := hc.timeIn_noop st s e r hview hin
  rw [hnoop, hview] at hview1
  have hr1 : r1 = r := (Option.some.inj hview1).symm
  subst hr1
  have hview' : view (S.recordTimeIn (.str s) (.str e) st).2 s e = some r1 := by
    rw [hnoop]; exact hview
  have hnoop2 := hc.timeOut_noop _ s e r1 hview' hout
  rw [hres]
  simp only [hin, hout, Bool.not_true, Bool.and_false, Bool.false_eq_true, if_false]
  exact ⟨trivial, trivial, hnoop2.trans hnoop⟩

/-- C1 (divergence): for every store that obeys the contract of section 4.2
and every identity without a record, the first scan reports checked-in and
leaves `timeIn` set and `timeOut` absent; the second scan of the same identity
reports checked-in again, calls only `recordTimeIn`, and leaves `timeOut`
absent: the record returned for an identity that is already checked in has
`time_in` set and `time_out` absent, which is the test for a fresh check-in
(line 84). -/
theorem second_scan_checks_in_again {σ : Type} (S : Store σ)
    (view : σ → JsString → JsString → Option AttendanceRecord) (hc : ObeysContract S view)
    (text : JsString) (s e : JsString) (st : σ)
    (hsid : getProp (parsePayload text) (js "seminar_id") = some (.str s))
    (hemail : getProp (parsePayload text) (js "participant_email") = some (.str e))
    (hnew : view st s e = none) :
    (onScanSuccess S text st).outcome = .checkedIn ∧
      (∃ t, view (onScanSuccess S text st).store s e = some ⟨some t, none⟩) ∧
      (onScanSuccess S text (onScanSuccess S text st).store).outcome = .checkedIn ∧
      (onScanSuccess S text (onScanSuccess S text st).store).calls =
        [.timeIn (.str s) (.str e)] ∧
      (∃ t, view (onScanSuccess S text (onScanSuccess S text st).store).store s e =
        some ⟨some t, none⟩) := by
  obtain ⟨t, ht⟩ := hc.timeIn_create st s e hnew
  obtain ⟨r1, hview1, hres1⟩ := onScanSuccess_under_contract S view hc text s e st hsid hemail
  rw [ht] at hview1
  have hr1 : r1 = ⟨some t, none⟩ := (Option.some.inj hview1).symm
  subst hr1
  simp only [Option.isSome_some, Option.isSome_none, Bool.not_false, Bool.and_self, if_true]
    at hres1
  have hstore1 : (onScanSuccess S text st).store = (S.recordTimeIn (.str s) (.str e) st).2 := by
    rw [hres1]
  have hv1 : view (onScanSuccess S text st).store s e = some ⟨some t, none⟩ := by
    rw [hstore1]; exact ht
  obtain ⟨r2, hview2, hres2⟩ := onScanSuccess_under_contract S view hc text s e
    (onScanSuccess S text st).store hsid hemail
  have hnoop := hc.timeIn_noop (onScanSuccess S text st).store s e _ hv1 rfl
  rw [hnoop, hv1] at hview2
  have hr2 : r2 = ⟨some t, none⟩ := (Option.some.inj hview2).symm
  subst hr2
  simp only [Option.isSome_some, Option.isSome_none, Bool.not_false, Bool.and_self, if_true]
    at hres2
  refine ⟨by rw [hres1], ⟨t, hv1⟩, by rw [hres2], by rw [hres2], ⟨t, ?_⟩⟩
  rw [hres2]
  show view (S.recordTimeIn (.str s) (.str e) (onScanSuccess S text st).store).2 s e = _
  rw [hnoop]
  exact hv1

theorem second_scan_checks_in_again_witness :
    (onScanSuccess (specStore false) (js "42|p@q.io") emptyDb).outcome = .checkedIn ∧
      (∃ t, Db.view (onScanSuccess (specStore false) (js "42|p@q.io") emptyDb).store
        (js "42") (js "p@q.io") = some ⟨some t, none⟩) ∧
      (onScanSuccess (specStore false) (js "42|p@q.io")
        (onScanSuccess (specStore false) (js "42|p@q.io") emptyDb).store).outcome = .checkedIn ∧
      (onScanSuccess (specStore false) (js "42|p@q.io")
        (onScanSuccess (specStore false) (js "42|p@q.io") emptyDb).store).calls =
        [.timeIn (.str (js "42")) (.str (js "p@q.io"))] ∧
      (∃ t, Db.view (onScanSuccess (specStore false) (js "42|p@q.io")
        (onScanSuccess (specStore false) (js "42|p@q.io") emptyDb).store).store
        (js "42") (js "p@q.io") = some ⟨some t, none⟩) :=
  second_scan_checks_in_again (specStore false) Db.view (specStore_obeys false)
    (js "42|p@q.io") (js "42") (js "p@q.io") emptyDb rfl rfl rfl

/-- C2 (terminal state): for every store that obeys the contract of section 4.2
and every identity whose record has both `timeIn` and `timeOut` set, a scan
reports checked-out after one `recordTimeIn` and one `recordTimeOut` call and
leaves the record of every identity as it was; so does every further scan. -/
theorem scan_of_completed_record {σ : Type} (S : Store σ)
    (view : σ → JsString → JsString → Option AttendanceRecord) (hc : ObeysContract S view)
    (text : JsString) (s e : JsString) (st : σ) (r : AttendanceRecord)
    (hsid : getProp (parsePayload text) (js "seminar_id") = some (.str s))
    (hemail : getProp (parsePayload text) (js "participant_email") = some (.str e))
    (hview : view st s e = some r)
    (hin : r.timeIn.isSome = true) (hout : r.timeOut.isSome = true) :
    (onScanSuccess S text st).outcome = .checkedOut ∧
      (onScanSuccess S text st).calls = [.timeIn (.str s) (.str e), .timeOut (.str s) (.str e)] ∧
      view (onScanSuccess S text st).store = view st ∧
      ∀ n, view (scanAgain S text n st) = view st ∧
        (onScanSuccess S text (scanAgain S text n st)).outcome = .checkedOut := by
  have hone := view_scanAgain_done S view hc text s e r hsid hemail hin hout
  refine ⟨(hone st hview).1, (hone st hview).2.1, (hone st hview).2.2, ?_⟩
  have hall : ∀ n st', view st' = view st → view (scanAgain S text n st') = view st := by
    intro n
    induction n with
    | zero => intro st' h; exact h
    | succ n ih =>
      intro st' h
      have hv : view st' s e = some r := by rw [h]; exact hview
      exact ih _ ((hone st' hv).2.2.trans h)
  intro n
  have hv := hall n st rfl
  exact ⟨hv, (hone _ (by rw [hv]; exact hview)).1⟩

theorem scan_of_completed_record_witness :
    (onScanSuccess (specStore true) (js "42|p@q.io") doneDb).outcome = .checkedOut ∧
      (onScanSuccess (specStore true) (js "42|p@q.io") doneDb).calls =
        [.timeIn (.str (js "42")) (.str (js "p@q.io")),
          .timeOut (.str (js "42")) (.str (js "p@q.io"))] ∧
      Db.view (onScanSuccess (specStore true) (js "42|p@q.io") doneDb).store = Db.view doneDb ∧
      ∀ n, Db.view (scanAgain (specStore true) (js "42|p@q.io") n doneDb) = Db.view doneDb ∧
        (onScanSuccess (specStore true) (js "42|p@q.io")
          (scanAgain (specStore true) (js "42|p@q.io") n doneDb)).outcome = .checkedOut :=
  scan_of_completed_record (specStore true) Db.view (specStore_obeys true) (js "42|p@q.io")
    (js "42") (js "p@q.io") doneDb ⟨some (demoClock 0), some (demoClock 1)⟩ rfl rfl rfl rfl rfl

theorem manualCheckInOut_of_nonempty {σ : Type} (S : Store σ) (s e : JsString) (st : σ)
    (hs : s ≠ []) (he : e ≠ []) :
    manualCheckInOut S s e st =
      match S.recordTimeIn (.str s) (.str e) st with
      | (.rejected, st1) => ⟨.threw, [.timeIn (.str s) (.str e)], st1⟩
      | (.resolved inRes, st1) =>
        match getProp inRes (js "error"), getProp inRes (js "data") with
        | some error, some data =>
          if toBoolean error then ⟨.errorIn, [.timeIn (.str s) (.str e)], st1⟩
          else if hasTimeIn data && !hasTimeOut data then
            ⟨.checkedIn, [.timeIn (.str s) (.str e)], st1⟩
          else
            match S.recordTimeOut (.str s) (.str e) st1 with
            | (.rejected, st2) =>
              ⟨.threw, [.timeIn (.str s) (.str e), .timeOut (.str s) (.str e)], st2⟩
            | (.resolved outRes, st2) =>
              match getProp outRes (js "error") with
              | some error2 =>
                if toBoolean error2 then
                  ⟨.errorOut, [.timeIn (.str s) (.str e), .timeOut (.str s) (.str e)], st2⟩
                else ⟨.checkedOut, [.timeIn (.str s) (.str e), .timeOut (.str s) (.str e)], st2⟩
              | none => ⟨.threw, [.timeIn (.str s) (.str e), .timeOut (.str s) (.str e)], st2⟩
        | _, _ => ⟨.threw, [.timeIn (.str s) (.str e)], st1⟩ := by
  unfold manualCheckInOut
  have h1 : s.isEmpty = false := by cases s <;> simp_all
  have h2 : e.isEmpty = false := by cases e <;> simp_all
  simp only [h1, h2, Bool.or_self, Bool.false_eq_true, if_false]

/-- C9 (both shapes of `data`): for every record `r` (any value that is not
itself an array), the flags `hasTimeIn` and `hasTimeOut` are the same for
`data = r` and for `data = [r]`, and so is the test `hasTimeIn && !hasTimeOut`
that decides between stopping with checked-in and calling `recordTimeOut`. -/
theorem flags_same_for_both_shapes (r : JsVal) (hrecord : isArray r = false) :
    hasTimeIn (.arr [r]) = hasTimeIn r ∧ hasTimeOut (.arr [r]) = hasTimeOut r ∧
      (hasTimeIn (.arr [r]) && !hasTimeOut (.arr [r])) = (hasTimeIn r && !hasTimeOut r) := by
  rw [hasTimeIn_singleton r hrecord, hasTimeOut_singleton r hrecord]
  exact ⟨rfl, rfl, rfl⟩

theorem flags_same_for_both_shapes_witness :
    hasTimeIn (.arr [rowVal (js "42") (js "p@q.io") ⟨some (demoClock 0), none⟩]) =
        hasTimeIn (rowVal (js "42") (js "p@q.io") ⟨some (demoClock 0), none⟩) ∧
      hasTimeOut (.arr [rowVal (js "42") (js "p@q.io") ⟨some (demoClock 0), none⟩]) =
        hasTimeOut (rowVal (js "42") (js "p@q.io") ⟨some (demoClock 0), none⟩) ∧
      (hasTimeIn (.arr [rowVal (js "42") (js "p@q.io") ⟨some (demoClock 0), none⟩]) &&
          !hasTimeOut (.arr [rowVal (js "42") (js "p@q.io") ⟨some (demoClock 0), none⟩])) =
        (hasTimeIn (rowVal (js "42") (js "p@q.io") ⟨some (demoClock 0), none⟩) &&
          !hasTimeOut (rowVal (js "42") (js "p@q.io") ⟨some (demoClock 0), none⟩)) :=
  flags_same_for_both_shapes (rowVal (js "42") (js "p@q.io") ⟨some (demoClock 0), none⟩) rfl

/-- C10 (manual path and scan path): for non-empty strings `s` and `e`, every
store and every store state, `manualCheckInOut` on `(s, e)` and `onScanSuccess`
on a text whose payload has `seminar_id = s` and `participant_email = e` make
the same store calls with the same arguments, end with the same kind of
outcome and leave the same store state. -/
theorem manual_path_same_as_scan_path {σ : Type} (S : Store σ) (st : σ) (s e : JsString)
    (text : JsString) (hs : s ≠ []) (he : e ≠ [])
    (hsid : getProp (parsePayload text) (js "seminar_id") = some (.str s))
    (hemail : getProp (parsePayload text) (js "participant_email") = some (.str e)) :
    manualCheckInOut S s e st = onScanSuccess S text st ∧
      (manualCheckInOut S s e st).calls = (onScanSuccess S text st).calls ∧
      (manualCheckInOut S s e st).outcome = (onScanSuccess S text st).outcome := by
  have h : manualCheckInOut S s e st = onScanSuccess S text st := by
    rw [manualCheckInOut_of_nonempty S s e st hs he,
      onScanSuccess_of_fields S text st _ _ hsid hemail]
  rw [h]
  exact ⟨rfl, rfl, rfl⟩

theorem manual_path_same_as_scan_path_witness :
    manualCheckInOut (specStore false) (js "42") (js "p@q.io") emptyDb =
        onScanSuccess (specStore false)
          (js "\x7b\"seminar_id\":\"42\",\"participant_email\":\"p@q.io\"\x7d") emptyDb ∧
      (manualCheckInOut (specStore false) (js "42") (js "p@q.io") emptyDb).calls =
        (onScanSuccess (specStore false)
          (js "\x7b\"seminar_id\":\"42\",\"participant_email\":\"p@q.io\"\x7d") emptyDb).calls ∧
      (manualCheckInOut (specStore false) (js "42") (js "p@q.io") emptyDb).outcome =
        (onScanSuccess (specStore false)
          (js "\x7b\"seminar_id\":\"42\",\"participant_email\":\"p@q.io\"\x7d") emptyDb).outcome :=
  manual_path_same_as_scan_path (specStore false) emptyDb (js "42") (js "p@q.io")
    (js "\x7b\"seminar_id\":\"42\",\"participant_email\":\"p@q.io\"\x7d") (by decide) (by decide)
    rfl rfl

end EarlEd
